import Mathlib

/-!
Shallow embedding of the Electron main-process orchestrator of coinstac
(`app/main/index.js`): the `start-pipeline`, `stop-pipeline` and `login-init`
IPC handlers, the image-list computation, the per-image pull-stream bridging
and the `Promise.all` aggregation, together with the trace of observable
actions (renderer sends, notifications, `unlinkFiles` calls, external calls)
that one invocation of each handler produces.
-/

namespace Coinstac


/-! ## Pipeline data model (the fields the handler reads) -/

/-- A computation, carrying its docker image reference
(`comp.computation.dockerImage`). -/
structure Computation where
  dockerImage : String
deriving DecidableEq, Repr


/-- One entry of a step's `computations` array (`comp.computation`). -/
structure CompEntry where
  computation : Computation
deriving DecidableEq, Repr


/-- One pipeline step (`step.computations`). -/
structure Step where
  computations : List CompEntry
deriving DecidableEq, Repr


/-- The pipeline snapshot the handler works on (`run.pipelineSnapshot`). -/
structure Pipeline where
  name : String
  steps : List Step
deriving DecidableEq, Repr


/-- The image list computed before acquisition (main/index.js lines 184-187):
`pipeline.steps.map(step => step.computations.map(comp =>
comp.computation.dockerImage)).reduce((acc, val) => acc.concat(val), [])`. -/
def computationImageList (pipeline : Pipeline) : List String :=
  (pipeline.steps.map
    (fun step => step.computations.map
      (fun comp => comp.computation.dockerImage))).foldl
    (fun acc val => acc ++ val) []


/-- The spec's words for the Image Resolver output ("deduplicated sequence of
image references, first-seen order preserved, one entry per distinct image"),
stated independently of the source for comparison. -/
def specDedupFirstSeen (refs : List String) : List String :=
  refs.foldl (fun acc r => if r ∈ acc then acc else acc ++ [r]) []


/-- The flattened, in-order image list: each step's images concatenated,
duplicates retained. -/
def flattenedImageList (pipeline : Pipeline) : List String :=
  (pipeline.steps.map
    (fun step => step.computations.map
      (fun comp => comp.computation.dockerImage))).flatten


/-! ## Error values and pull streams

A JS rejection reason in this file is either an error-like object (fields
`message`, `stack`, `error`, `input`, `statusCode`, each possibly absent) or a
bare string (the handler rejects with `stream.message` when a pull never
started).  Property access on a bare string yields `undefined`, modelled as
`none`. -/

/-- An error-like JS object: the fields the handlers read, each `none` when
absent (`undefined`). -/
structure ErrObj where
  message : Option String := none
  stack : Option String := none
  error : Option String := none
  input : Option String := none
  statusCode : Option Nat := none
deriving DecidableEq, Repr


/-- A JS value used as rejection reason: an error object or a bare string. -/
inductive RejReason where
  | obj (e : ErrObj)
  | str (s : String)
deriving DecidableEq, Repr


/-- `.message` access on a rejection reason: `undefined` on a bare string. -/
def RejReason.message : RejReason → Option String
  | .obj e => e.message
  | .str _ => none


/-- `.stack` access on a rejection reason: `undefined` on a bare string. -/
def RejReason.stack : RejReason → Option String
  | .obj e => e.stack
  | .str _ => none


/-- `.error` access on a rejection reason: `undefined` on a bare string. -/
def RejReason.error : RejReason → Option String
  | .obj e => e.error
  | .str _ => none


/-- One event emitted by a pull-progress stream. -/
inductive StreamEvent where
  | dataEv (chunk : String)
  | endEv
  | errorEv (e : ErrObj)
deriving DecidableEq, Repr


/-- The `stream` value returned per image by `pullImagesFromList`: either a
plain `{message, statusCode}` object (the pull never started: `stream.on` is
not a function) or a subscribable source that emits its events in order. -/
inductive DockerStream where
  | plain (message : String) (statusCode : Nat)
  | subscribable (events : List StreamEvent)
deriving DecidableEq, Repr


/-- The settled outcome of the per-image proxy promise for a subscribable
stream: resolve at the first `end`, reject (with the error object) at the
first `error`; `none` when the stream never emits a terminal event (the
promise stays pending). -/
def subscribableSettle : List StreamEvent → Option (Except RejReason Unit)
  | [] => none
  | .endEv :: _ => some (.ok ())
  | .errorEv e :: _ => some (.error (.obj e))
  | .dataEv _ :: rest => subscribableSettle rest


/-- The settled outcome of the per-image proxy promise (main/index.js lines
197-223): a plain stream rejects synchronously with the bare `stream.message`
string (`proxRej(stream.message)`); a subscribable stream settles at its first
terminal event. -/
def streamSettle : DockerStream → Option (Except RejReason Unit)
  | .plain msg _ => some (.error (.str msg))
  | .subscribable evs => subscribableSettle evs


/-! ## Promise.all timing model (for the acquisition fan-in)

Each per-image promise is given a settle time: a plain stream rejects at time
0 (synchronously, during the `forEach`), a subscribable stream settles after
consuming the events that precede its first terminal event.  `Promise.all`
(main/index.js line 226) rejects at the earliest rejection time and resolves
only once every promise has resolved; it stays pending otherwise. -/

/-- Settle time and success flag of one per-image promise: `some (t, true)` /
`some (t, false)` when it resolves / rejects after `t` events, `none` when it
never settles. -/
def streamSettleTime : DockerStream → Option (Nat × Bool)
  | .plain _ _ => some (0, false)
  | .subscribable evs => go evs 0
where
  go : List StreamEvent → Nat → Option (Nat × Bool)
    | [], _ => none
    | .endEv :: _, t => some (t, true)
    | .errorEv _ :: _, t => some (t, false)
    | .dataEv _ :: rest, t => go rest (t + 1)


/-- The times at which per-image promises reject. -/
def rejectionTimes (xs : List (Option (Nat × Bool))) : List Nat :=
  xs.filterMap (fun x =>
    match x with
    | some (t, false) => some t
    | _ => none)


/-- The times at which settled per-image promises settle. -/
def settleTimes (xs : List (Option (Nat × Bool))) : List Nat :=
  xs.filterMap (fun x => x.map Prod.fst)


/-- The settle time of `Promise.all` over per-promise settle outcomes:
rejects at the earliest rejection, resolves at the latest resolution once all
have resolved, else stays pending. -/
def promiseAllSettle (xs : List (Option (Nat × Bool))) : Option (Nat × Bool) :=
  match rejectionTimes xs with
  | t :: ts => some (ts.foldl min t, false)
  | [] =>
      if xs.all Option.isSome then
        some ((settleTimes xs).foldl max 0, true)
      else none


/-- The streams of C4's counterexample: the first pull errors immediately, the
second is still downloading (two data chunks) before it ends. -/
def c4Streams : List DockerStream :=
  [ .subscribable [.errorEv { message := some "pull failed" }]
  , .subscribable [.dataEv "a", .dataEv "b", .endEv] ]


/-! ## Observable actions of one `start-pipeline` invocation

The handler's effects, in program order: renderer sends
(`save-local-run`, `local-pipeline-state-update`, `local-run-error`,
`local-run-complete`, `docker-error`), desktop notifications
(`ipcFunctions.sendNotification`), staged-file releases
(`initializedCore.unlinkFiles`), and the external calls
`pruneImages` / `startPipeline`. -/

/-- One observable action of the main-process handlers. -/
inductive Action where
  | saveLocalRun
  | stateUpdate (txt : String)
  | unlink (runId : String)
  | localRunError (message stack error input : Option String)
  | localRunComplete
  | notify (title body : String)
  | pruneCall
  | startPipelineCall
  | dockerError (message stack : Option String)
deriving DecidableEq, Repr


/-- Is the action a `local-pipeline-state-update` send? -/
def isStateUpdate : Action → Bool
  | .stateUpdate _ => true
  | _ => false


/-- Is the action a terminal observer run record (`local-run-error` or
`local-run-complete`)? -/
def isTermRec : Action → Bool
  | .localRunError _ _ _ _ => true
  | .localRunComplete => true
  | _ => false


/-- Is the action an `unlinkFiles` invocation? -/
def isUnlinkA : Action → Bool
  | .unlink _ => true
  | _ => false


/-- Cleanup or terminal record: the actions whose relative order the
cleanup-before-notification property speaks about. -/
def isSpecialA (a : Action) : Bool :=
  isUnlinkA a || isTermRec a


/-- Number of `unlinkFiles` invocations in a trace. -/
def countUnlink (tr : List Action) : Nat :=
  (tr.filter isUnlinkA).length


/-- The handle returned by `startPipeline`: the `stateEmitter` update events
and the `result` promise, which resolves with results or rejects with an
error object. -/
structure EngineHandle where
  updates : List String
  result : Except ErrObj (List String)
deriving Repr


/-- The environment of one `start-pipeline` invocation: the run's fields the
handler reads and the outcomes of the external calls it makes.
`pullResult` is `pullImagesFromList`'s outcome, `pruneOk` whether
`pruneImages` resolves, `startPipelineResult` the `startPipeline` outcome.
`unlinkFiles` is assumed to resolve. -/
structure StartEnv where
  runId : String
  runType : String
  pipelineName : String
  consName : String
  pullResult : Except ErrObj (List DockerStream)
  pruneOk : Bool
  startPipelineResult : Except ErrObj EngineHandle


/-- The `local-pipeline-state-update` sends of one subscribable stream's
`data` listener, one per chunk before the first terminal event. -/
def progressUpdates : List StreamEvent → List Action
  | [] => []
  | .endEv :: _ => []
  | .errorEv _ :: _ => []
  | .dataEv d :: rest =>
      Action.stateUpdate ("Downloading required docker images\n " ++ d)
        :: progressUpdates rest


/-- The sends produced while bridging one stream (main/index.js lines
201-223): a plain stream produces none (the `else` branch is skipped); a
subscribable stream first sends the bare downloading banner, then one update
per data chunk. -/
def streamTrace : DockerStream → List Action
  | .plain _ _ => []
  | .subscribable evs =>
      Action.stateUpdate "Downloading required docker images" :: progressUpdates evs


/-- The settled outcome of `Promise.all(streamProms)`.  Scheduling model:
plain streams reject synchronously during the `forEach`, so the first plain
failure in list order wins; otherwise the first subscribable stream in list
order with an `error` event provides the rejection; otherwise the aggregate
resolves once every stream has ended, and stays pending (`none`) when some
stream never emits a terminal event. -/
def acqOutcome (streams : List DockerStream) : Option (Except RejReason Unit) :=
  match streams.findSome? (fun s =>
    match s with
    | .plain m _ => some (RejReason.str m)
    | _ => none) with
  | some r => some (.error r)
  | none =>
      match streams.findSome? (fun s =>
        match streamSettle s with
        | some (.error r) => some r
        | _ => none) with
      | some r => some (.error r)
      | none =>
          if streams.all (fun s => (streamSettle s).isSome) then
            some (.ok ())
          else none


/-- The acquisition `.catch` branch (main/index.js lines 228-246): first
`unlinkFiles(run.id)`, then the `local-run-error` send whose payload reads
`message`, `stack` and `error` off the rejection reason (no `input`,
no `statusCode`). -/
def acqCatchTrace (runId : String) (r : RejReason) : List Action :=
  [ Action.unlink runId
  , Action.localRunError r.message r.stack r.error none ]


/-- The tail of the chain from `pruneImages` on (main/index.js lines
247-337).  A `pruneImages` rejection is unhandled: the chain stops after the
call.  Otherwise the started-notification fires, `startPipeline` is invoked,
and its outcome drives the terminal branch: the outer `.catch` (lines
321-336) sends `local-run-error` without `unlinkFiles` and without `input`;
a settled engine `result` first fires the finished/stopped notification,
then `unlinkFiles`, then the terminal record (`local-run-complete` only when
`run.type === 'local'`; `local-run-error` carries `input`). -/
def postAcqTrace (env : StartEnv) : List Action :=
  if env.pruneOk then
    Action.pruneCall ::
    Action.notify "Pipeline started"
      ("Pipeline " ++ env.pipelineName ++ " started on consortia " ++ env.consName) ::
    Action.startPipelineCall ::
      (match env.startPipelineResult with
      | .error e => [Action.localRunError e.message e.stack e.error none]
      | .ok handle =>
          (handle.updates.map (fun d => Action.stateUpdate d)) ++
            match handle.result with
            | .ok _ =>
                Action.notify "Pipeline finished"
                  ("Pipeline " ++ env.pipelineName ++ " finished on consortia " ++ env.consName) ::
                Action.unlink env.runId ::
                  (if env.runType = "local" then [Action.localRunComplete] else [])
            | .error e =>
                [ Action.notify "Pipeline stopped"
                    ("Pipeline " ++ env.pipelineName ++ " stopped on consortia " ++ env.consName)
                , Action.unlink env.runId
                , Action.localRunError e.message e.stack e.error e.input ])
  else [Action.pruneCall]


/-- The full observable trace of one `start-pipeline` invocation
(main/index.js lines 167-338).  `save-local-run` is sent first; then the
pull streams are bridged; a rejected acquisition runs the `.catch` branch —
and, because that `.catch` swallows the rejection, the chain CONTINUES into
`postAcqTrace` afterwards, exactly as the source does. -/
def startPipelineTrace (env : StartEnv) : List Action :=
  Action.saveLocalRun ::
    match env.pullResult with
    | .error e => acqCatchTrace env.runId (.obj e) ++ postAcqTrace env
    | .ok streams =>
        (streams.map streamTrace).flatten ++
          match acqOutcome streams with
          | none => []
          | some (.error r) => acqCatchTrace env.runId r ++ postAcqTrace env
          | some (.ok _) => postAcqTrace env


/-- Did the acquisition phase fail (rejected `pullImagesFromList` or a
rejected `Promise.all`)? -/
def acqFailed (env : StartEnv) : Bool :=
  match env.pullResult with
  | .error _ => true
  | .ok streams =>
      match acqOutcome streams with
      | some (.error _) => true
      | _ => false


/-- Did the acquisition phase succeed (all pulls ended)? -/
def acqSucceeded (env : StartEnv) : Bool :=
  match env.pullResult with
  | .error _ => false
  | .ok streams =>
      match acqOutcome streams with
      | some (.ok _) => true
      | _ => false


/-- Did the `startPipeline` call itself resolve? -/
def spOk (env : StartEnv) : Bool :=
  match env.startPipelineResult with
  | .ok _ => true
  | .error _ => false


/-- A concrete pipeline whose steps reference images imgA, imgB, imgA. -/
def dupPipeline : Pipeline :=
  { name := "p"
    steps :=
      [ { computations := [{ computation := { dockerImage := "imgA" } }] }
      , { computations := [{ computation := { dockerImage := "imgB" } }] }
      , { computations := [{ computation := { dockerImage := "imgA" } }] } ] }


/-! ## C1: image-pull failure and startPipeline -/

/-- C1's failing run: a single pull stream that emits an error; prune and
engine would succeed. -/
def envC1 : StartEnv :=
  { runId := "run1"
    runType := "local"
    pipelineName := "pipe"
    consName := "cons"
    pullResult := .ok
      [.subscribable [.errorEv { message := some "pull failed", stack := some "st", error := some "eno" }]]
    pruneOk := true
    startPipelineResult := .ok { updates := [], result := .ok ["res"] } }


/-! ## C2: unlinkFiles exactly once per run -/

/-- C2's first failing run: acquisition succeeds (no images) and the
`startPipeline` call itself rejects. -/
def envC2a : StartEnv :=
  { runId := "run2a"
    runType := "local"
    pipelineName := "pipe"
    consName := "cons"
    pullResult := .ok []
    pruneOk := true
    startPipelineResult := .error { message := some "engine down" } }


/-- C2's second failing run: acquisition fails, and the (erroneously
started) engine then resolves. -/
def envC2b : StartEnv :=
  { runId := "run2b"
    runType := "local"
    pipelineName := "pipe"
    consName := "cons"
    pullResult := .ok [.subscribable [.errorEv { message := some "nope" }]]
    pruneOk := true
    startPipelineResult := .ok { updates := [], result := .ok ["r"] } }


/-! ## C6: pruneImages failure -/

/-- C6's run: acquisition succeeds (one stream that ends) and `pruneImages`
rejects. -/
def envC6 : StartEnv :=
  { runId := "run6"
    runType := "local"
    pipelineName := "pipe"
    consName := "cons"
    pullResult := .ok [.subscribable [.dataEv "chunk", .endEv]]
    pruneOk := false
    startPipelineResult := .ok { updates := [], result := .ok ["r"] } }


/-- The rejection of C7's witness run: `{message:"boom", input:"x:1"}` plus
stack and inner error. -/
def engErrC7 : ErrObj :=
  { message := some "boom", stack := some "stk", error := some "inner", input := some "x:1" }


/-- The engine handle of C7's witness run. -/
def handleC7 : EngineHandle :=
  { updates := ["u1"], result := .error engErrC7 }


/-- C7's witness run: one pull that ends, prune resolves, engine result
rejects with `engErrC7`. -/
def envC7 : StartEnv :=
  { runId := "run7"
    runType := "local"
    pipelineName := "pipe"
    consName := "cons"
    pullResult := .ok [.subscribable [.endEv]]
    pruneOk := true
    startPipelineResult := .ok handleC7 }


/-- C10's witness run: a single pull whose stream is the plain value
`{message:"daemon unreachable", statusCode:500}`. -/
def envC10 : StartEnv :=
  { runId := "r10"
    runType := "local"
    pipelineName := "pipe"
    consName := "cons"
    pullResult := .ok [.plain "daemon unreachable" 500]
    pruneOk := true
    startPipelineResult := .ok { updates := [], result := .ok [] } }


/-! ## C5: cleanup versus notification order -/

/-- Is the action the `Pipeline stopped` desktop notification? -/
def isStoppedNotify : Action → Bool
  | .notify t _ => t == "Pipeline stopped"
  | _ => false


/-- C5's first run: acquisition trivially succeeds, engine result rejects. -/
def envC5a : StartEnv :=
  { runId := "run5"
    runType := "local"
    pipelineName := "pipe"
    consName := "cons"
    pullResult := .ok []
    pruneOk := true
    startPipelineResult := .ok
      { updates := [], result := .error { message := some "boom", input := some "x:1" } } }


/-- C5's second run: the `startPipeline` call itself rejects. -/
def envC5b : StartEnv :=
  { runId := "run5b"
    runType := "local"
    pipelineName := "pipe"
    consName := "cons"
    pullResult := .ok []
    pruneOk := true
    startPipelineResult := .error { message := some "died" } }


/-! ## C8: stop request for an unknown run -/

/-- The environment of one `stop-pipeline` invocation: the outcome of
`initializedCore.requestPipelineStop` (an `error` models a synchronous
throw, e.g. NotFound for an unknown runId). -/
structure StopEnv where
  stopResult : Except ErrObj Unit


/-- The `stop-pipeline` handler (main/index.js lines 346-358): on a
synchronous throw the catch logs and sends a `docker-error`
`{message, stack}` to the renderer and the handler returns `undefined`
(`none`); otherwise no send happens and the engine's promise is returned —
but the handler is registered via `ipcMain.on`, so nothing reaches the
requesting caller either way. -/
def stopPipelineTrace (env : StopEnv) : List Action × Option Unit :=
  match env.stopResult with
  | .ok _ => ([], some ())
  | .error e => ([Action.dockerError e.message e.stack], none)


/-- The NotFound thrown for an unknown runId. -/
def notFoundErr : ErrObj :=
  { message := some "NotFound: no run with the provided id", stack := some "stk" }


/-! ## C9: login-init idempotence -/

/-- A configured session core instance. -/
structure CoreInst where
  coreId : Nat
deriving DecidableEq, Repr


/-- The `login-init` handler (main/index.js lines 132-139): when
`initializedCore` is already set it resolves at once — `configureCore` does
not run and the stored instance is untouched; otherwise a fresh core is
configured and stored.  Returns the new state and whether configuration work
ran. -/
def loginInit (st : Option CoreInst) (fresh : CoreInst) :
    Option CoreInst × Bool :=
  match st with
  | some _ => (st, false)
  | none => (some fresh, true)


theorem foldl_append_eq_flatten (l : List (List String)) (acc : List String) :
    l.foldl (fun a v => a ++ v) acc = acc ++ l.flatten := by
  induction l generalizing acc with
  | nil => simp [List.flatten]
  | cons x xs ih => simp [List.flatten, ih, List.append_assoc]


/-- C4 counterexample: with one pull failing at time 0 and another still in
flight until time 2, the `Promise.all` aggregate settles at time 0 — before
the second pull has settled — refuting "the aggregate settles only after
every per-image pull has itself settled". -/
theorem c4_counterexample :
    promiseAllSettle (c4Streams.map streamSettleTime) = some (0, false)
      ∧ streamSettleTime (c4Streams.get ⟨1, by decide⟩) = some (2, true)
      ∧ ¬ (∀ x ∈ c4Streams.map streamSettleTime,
            ∀ tx sx, x = some (tx, sx) → tx ≤ 0) := by
  refine ⟨by decide, by decide, ?_⟩
  intro h
  have := h (some (2, true)) (by decide) 2 true rfl
  omega


theorem foldl_min_le_init (ts : List Nat) : ∀ a : Nat, ts.foldl min a ≤ a := by
  induction ts with
  | nil => intro a; exact Nat.le_refl a
  | cons y ys ih =>
      intro a
      exact Nat.le_trans (ih (min a y)) (Nat.min_le_left a y)


theorem foldl_min_le_mem (ts : List Nat) :
    ∀ a x : Nat, x ∈ ts → ts.foldl min a ≤ x := by
  induction ts with
  | nil => intro a x hx; cases hx
  | cons y ys ih =>
      intro a x hx
      cases hx with
      | head =>
          exact Nat.le_trans (foldl_min_le_init ys (min a y)) (Nat.min_le_right a y)
      | tail _ h => exact ih (min a y) x h


theorem foldl_min_mem (ts : List Nat) :
    ∀ a : Nat, ts.foldl min a = a ∨ ts.foldl min a ∈ ts := by
  induction ts with
  | nil => intro a; exact Or.inl rfl
  | cons y ys ih =>
      intro a
      rcases ih (min a y) with h | h
      · rcases Nat.le_total a y with hay | hya
        · rw [Nat.min_eq_left hay] at h
          refine Or.inl ?_
          show ys.foldl min (min a y) = a
          rw [Nat.min_eq_left hay]
          exact h
        · rw [Nat.min_eq_right hya] at h
          refine Or.inr ?_
          show ys.foldl min (min a y) ∈ y :: ys
          rw [Nat.min_eq_right hya, h]
          exact List.mem_cons_self y ys
      · exact Or.inr (List.mem_cons_of_mem y h)


theorem init_le_foldl_max (ts : List Nat) : ∀ a : Nat, a ≤ ts.foldl max a := by
  induction ts with
  | nil => intro a; exact Nat.le_refl a
  | cons y ys ih =>
      intro a
      exact Nat.le_trans (Nat.le_max_left a y) (ih (max a y))


theorem le_foldl_max_of_mem (ts : List Nat) :
    ∀ a x : Nat, x ∈ ts → x ≤ ts.foldl max a := by
  induction ts with
  | nil => intro a x hx; cases hx
  | cons y ys ih =>
      intro a x hx
      cases hx with
      | head =>
          exact Nat.le_trans (Nat.le_max_right a y) (init_le_foldl_max ys (max a y))
      | tail _ h => exact ih (max a y) x h


theorem mem_rejectionTimes (xs : List (Option (Nat × Bool))) (tx : Nat) :
    tx ∈ rejectionTimes xs ↔ some (tx, false) ∈ xs := by
  unfold rejectionTimes
  rw [List.mem_filterMap]
  constructor
  · rintro ⟨x, hx, hfx⟩
    match x with
    | none => simp at hfx
    | some (t, true) => simp at hfx
    | some (t, false) =>
        simp at hfx
        subst hfx
        exact hx
  · intro h
    exact ⟨some (tx, false), h, rfl⟩


/-- C4 (amended): `Promise.all` semantics — the aggregate resolves only after
every per-image promise has resolved (no rejection in flight), but on any
failure it settles at the earliest per-image rejection, which may precede the
settling of other still-running pulls; those pulls keep their listeners
until their own streams terminate. -/
theorem c4_amended (xs : List (Option (Nat × Bool))) (t : Nat) :
    (promiseAllSettle xs = some (t, true) →
      ∀ x ∈ xs, ∃ tx, x = some (tx, true) ∧ tx ≤ t)
    ∧ (promiseAllSettle xs = some (t, false) →
      some (t, false) ∈ xs ∧ ∀ tx, some (tx, false) ∈ xs → t ≤ tx) := by
  constructor
  · intro h x hx
    unfold promiseAllSettle at h
    cases hr : rejectionTimes xs with
    | cons t0 ts => simp [hr] at h
    | nil =>
        rw [hr] at h
        by_cases hall : xs.all Option.isSome = true
        · simp only [hall, if_true, Option.some.injEq, Prod.mk.injEq] at h
          have hxs : x.isSome = true := by
            have := List.all_eq_true.mp hall x hx
            simpa using this
          cases x with
          | none => simp at hxs
          | some p =>
              obtain ⟨tx, sx⟩ := p
              have hsx : sx = true := by
                cases sx with
                | true => rfl
                | false =>
                    exfalso
                    have hmem : tx ∈ rejectionTimes xs :=
                      (mem_rejectionTimes xs tx).mpr hx
                    rw [hr] at hmem
                    cases hmem
              subst hsx
              refine ⟨tx, rfl, ?_⟩
              have htx : tx ∈ settleTimes xs := by
                unfold settleTimes
                rw [List.mem_filterMap]
                exact ⟨some (tx, true), hx, rfl⟩
              have hle := le_foldl_max_of_mem (settleTimes xs) 0 tx htx
              omega
        · simp [hall] at h
  · intro h
    unfold promiseAllSettle at h
    cases hr : rejectionTimes xs with
    | nil =>
        rw [hr] at h
        by_cases hall : xs.all Option.isSome = true
        · simp [hall] at h
        · simp [hall] at h
    | cons t0 ts =>
        rw [hr] at h
        simp only [Option.some.injEq, Prod.mk.injEq, and_true] at h
        subst h
        constructor
        · have hmem : ts.foldl min t0 ∈ rejectionTimes xs := by
            rw [hr]
            rcases foldl_min_mem ts t0 with he | he
            · rw [he]
              exact List.mem_cons_self t0 ts
            · exact List.mem_cons_of_mem t0 he
          exact (mem_rejectionTimes xs _).mp hmem
        · intro tx hx
          have hmem : tx ∈ rejectionTimes xs := (mem_rejectionTimes xs tx).mpr hx
          rw [hr] at hmem
          cases hmem with
          | head => exact foldl_min_le_init ts t0
          | tail _ hm => exact foldl_min_le_mem ts t0 tx hm


/-- C4 (amended) witness: at the concrete streams of `c4Streams` the
aggregate rejection at time 0 is indeed the settled outcome of one of the
per-image promises. -/
theorem c4_witness :
    some (0, false) ∈ c4Streams.map streamSettleTime :=
  ((c4_amended (c4Streams.map streamSettleTime) 0).2 (by decide)).1


/-- C3 counterexample: on steps referencing `["imgA","imgB","imgA"]` the
computed image list keeps the duplicate (`"imgA"` appears twice, not exactly
once), so the list is not the claimed deduplicated first-seen sequence. -/
theorem c3_counterexample :
    computationImageList dupPipeline = ["imgA", "imgB", "imgA"]
      ∧ (computationImageList dupPipeline).count "imgA" = 2
      ∧ computationImageList dupPipeline
          ≠ specDedupFirstSeen (flattenedImageList dupPipeline) := by
  refine ⟨by decide, by decide, by decide⟩


/-- C3 (amended): the image list computed before acquisition is the in-order
concatenation of every step's computation image references, duplicates
included (no deduplication is performed). -/
theorem c3_amended (pipeline : Pipeline) :
    computationImageList pipeline = flattenedImageList pipeline := by
  unfold computationImageList flattenedImageList
  simpa using foldl_append_eq_flatten _ []


/-! ## Shared trace lemmas -/

theorem progressUpdates_stateUpdate (evs : List StreamEvent) :
    ∀ a ∈ progressUpdates evs, isStateUpdate a = true := by
  induction evs with
  | nil => intro a ha; cases ha
  | cons ev rest ih =>
      intro a ha
      cases ev with
      | dataEv d =>
          cases ha with
          | head => rfl
          | tail _ h => exact ih a h
      | endEv => cases ha
      | errorEv e => cases ha


theorem streamTrace_stateUpdate (s : DockerStream) :
    ∀ a ∈ streamTrace s, isStateUpdate a = true := by
  cases s with
  | plain m c => intro a ha; cases ha
  | subscribable evs =>
      intro a ha
      cases ha with
      | head => rfl
      | tail _ h => exact progressUpdates_stateUpdate evs a h


theorem flatten_streamTraces_stateUpdate (streams : List DockerStream) :
    ∀ a ∈ (streams.map streamTrace).flatten, isStateUpdate a = true := by
  intro a ha
  rw [List.mem_flatten] at ha
  obtain ⟨l, hl, hal⟩ := ha
  rw [List.mem_map] at hl
  obtain ⟨s, _, hs⟩ := hl
  exact streamTrace_stateUpdate s a (hs ▸ hal)


theorem isStateUpdate_not_special (a : Action) (h : isStateUpdate a = true) :
    isSpecialA a = false := by
  cases a <;> simp [isSpecialA, isUnlinkA, isTermRec] <;> cases h


theorem isStateUpdate_not_termRec (a : Action) (h : isStateUpdate a = true) :
    isTermRec a = false := by
  cases a <;> first | rfl | cases h


theorem isStateUpdate_ne_startCall (a : Action) (h : isStateUpdate a = true) :
    a ≠ Action.startPipelineCall := by
  cases a <;> simp [isStateUpdate] at h ⊢


theorem find_append_of_none {α} {p : α → Bool} {l1 l2 : List α}
    (h : l1.find? p = none) : (l1 ++ l2).find? p = l2.find? p := by
  induction l1 with
  | nil => rfl
  | cons a l ih =>
      by_cases hpa : p a = true
      · rw [List.find?_cons_of_pos _ hpa] at h
        cases h
      · rw [List.find?_cons_of_neg _ hpa] at h
        rw [List.cons_append, List.find?_cons_of_neg _ hpa]
        exact ih h


theorem find_none_of_all_neg {α} {p : α → Bool} {l : List α}
    (h : ∀ a ∈ l, p a = false) : l.find? p = none := by
  rw [List.find?_eq_none]
  intro a ha
  simp [h a ha]


theorem filter_nil_of_all_neg {α} {p : α → Bool} {l : List α}
    (h : ∀ a ∈ l, p a = false) : l.filter p = [] := by
  induction l with
  | nil => rfl
  | cons a as ih =>
      rw [List.filter_cons_of_neg (by simp [h a (List.mem_cons_self a as)])]
      exact ih (fun x hx => h x (List.mem_cons_of_mem a hx))


theorem flatten_streamTraces_find_special (streams : List DockerStream) :
    ((streams.map streamTrace).flatten).find? isSpecialA = none :=
  find_none_of_all_neg (fun a ha =>
    isStateUpdate_not_special a (flatten_streamTraces_stateUpdate streams a ha))


theorem flatten_streamTraces_filter_termRec (streams : List DockerStream) :
    ((streams.map streamTrace).flatten).filter isTermRec = [] :=
  filter_nil_of_all_neg (fun a ha =>
    isStateUpdate_not_termRec a (flatten_streamTraces_stateUpdate streams a ha))


theorem updates_map_filter_termRec (updates : List String) :
    ((updates.map (fun d => Action.stateUpdate d)).filter isTermRec) = [] :=
  filter_nil_of_all_neg (fun a ha => by
    rw [List.mem_map] at ha
    obtain ⟨d, _, hd⟩ := ha
    rw [← hd]
    rfl)


theorem updates_map_find_special (updates : List String) :
    ((updates.map (fun d => Action.stateUpdate d)).find? isSpecialA) = none :=
  find_none_of_all_neg (fun a ha => by
    rw [List.mem_map] at ha
    obtain ⟨d, _, hd⟩ := ha
    rw [← hd]
    rfl)


/-- C1: on a run whose only image pull errors, the handler does send the
Errored terminal record — but, because the acquisition `.catch` swallows the
rejection, the chain continues and `startPipeline` IS still invoked for that
run, contradicting the claim (and the code's own just-emitted terminal
record with `endDate`). -/
theorem c1_code_bug_eval :
    Action.localRunError (some "pull failed") (some "st") (some "eno") none
        ∈ startPipelineTrace envC1
      ∧ Action.startPipelineCall ∈ startPipelineTrace envC1
      ∧ Action.pruneCall ∈ startPipelineTrace envC1 := by
  refine ⟨by decide, by decide, by decide⟩


/-- C2: on a run whose `startPipeline` call rejects, the terminal
`local-run-error` record is emitted with ZERO `unlinkFiles` invocations (the
outer catch at main/index.js lines 321-336 has no cleanup); and on a run
whose acquisition fails, `unlinkFiles` is invoked TWICE (once in the
acquisition catch, once when the erroneously started engine settles) — both
contradict "exactly once per runId". -/
theorem c2_code_bug_eval :
    (countUnlink (startPipelineTrace envC2a) = 0
      ∧ Action.localRunError (some "engine down") none none none
          ∈ startPipelineTrace envC2a)
    ∧ countUnlink (startPipelineTrace envC2b) = 2 := by
  refine ⟨⟨by decide, by decide⟩, by decide⟩


/-- C6 counterexample: with a successful acquisition and a rejecting
`pruneImages`, the chain stops at the prune — `startPipeline` is never
invoked (the prune failure DOES prevent the engine from starting) and no
run-error record is emitted either (the rejection is unhandled). -/
theorem c6_counterexample :
    Action.pruneCall ∈ startPipelineTrace envC6
      ∧ Action.startPipelineCall ∉ startPipelineTrace envC6
      ∧ (startPipelineTrace envC6).filter isTermRec = [] := by
  refine ⟨by decide, by decide, by decide⟩


/-- C6 (amended): for every run whose acquisition succeeds, a rejecting
`pruneImages` call aborts the chain with an unhandled rejection: the engine
is never started and no terminal run record is surfaced to observers. -/
theorem c6_amended (env : StartEnv) (hp : env.pruneOk = false)
    (ha : acqSucceeded env = true) :
    Action.startPipelineCall ∉ startPipelineTrace env
      ∧ (startPipelineTrace env).filter isTermRec = [] := by
  unfold acqSucceeded at ha
  cases hpr : env.pullResult with
  | error e => simp [hpr] at ha
  | ok streams =>
      simp only [hpr] at ha
      cases hao : acqOutcome streams with
      | none => simp [hao] at ha
      | some r =>
          cases r with
          | error r0 => simp [hao] at ha
          | ok u =>
              have htr : startPipelineTrace env
                  = Action.saveLocalRun ::
                      ((streams.map streamTrace).flatten ++ [Action.pruneCall]) := by
                unfold startPipelineTrace postAcqTrace
                simp [hpr, hao, hp]
              rw [htr]
              constructor
              · intro hmem
                cases hmem with
                | tail _ h =>
                    rcases List.mem_append.mp h with h | h
                    · exact isStateUpdate_ne_startCall _
                        (flatten_streamTraces_stateUpdate streams _ h) rfl
                    · cases h with
                      | tail _ h2 => cases h2
              · rw [List.filter_cons_of_neg (by simp [isTermRec])]
                rw [List.filter_append]
                rw [flatten_streamTraces_filter_termRec]
                rfl


/-- C6 (amended) witness at the concrete run `envC6`. -/
theorem c6_amended_witness :
    Action.startPipelineCall ∉ startPipelineTrace envC6
      ∧ (startPipelineTrace envC6).filter isTermRec = [] :=
  c6_amended envC6 (by decide) (by decide)


/-! ## C7: engine rejection payload -/

/-- C7: for every run whose acquisition succeeds, whose prune resolves and
whose engine `result` rejects with `e`, the only terminal record delivered
to the observer channel is `local-run-error` with payload exactly
`{message, stack, error, input}` read off `e` — the `input` context is
preserved unchanged. -/
theorem c7_confirmed (env : StartEnv) (handle : EngineHandle) (e : ErrObj)
    (ha : acqSucceeded env = true) (hp : env.pruneOk = true)
    (hsp : env.startPipelineResult = .ok handle)
    (hres : handle.result = .error e) :
    (startPipelineTrace env).filter isTermRec
      = [Action.localRunError e.message e.stack e.error e.input] := by
  unfold acqSucceeded at ha
  cases hpr : env.pullResult with
  | error e2 => simp [hpr] at ha
  | ok streams =>
      simp only [hpr] at ha
      cases hao : acqOutcome streams with
      | none => simp [hao] at ha
      | some r =>
          cases r with
          | error r0 => simp [hao] at ha
          | ok u =>
              have htr : startPipelineTrace env
                  = Action.saveLocalRun ::
                      ((streams.map streamTrace).flatten ++
                        (Action.pruneCall ::
                          Action.notify "Pipeline started"
                            ("Pipeline " ++ env.pipelineName ++ " started on consortia " ++ env.consName) ::
                          Action.startPipelineCall ::
                            ((handle.updates.map (fun d => Action.stateUpdate d)) ++
                              [ Action.notify "Pipeline stopped"
                                  ("Pipeline " ++ env.pipelineName ++ " stopped on consortia " ++ env.consName)
                              , Action.unlink env.runId
                              , Action.localRunError e.message e.stack e.error e.input ]))) := by
                unfold startPipelineTrace postAcqTrace
                simp [hpr, hao, hp, hsp, hres]
              rw [htr]
              rw [List.filter_cons_of_neg (by simp [isTermRec])]
              rw [List.filter_append, flatten_streamTraces_filter_termRec, List.nil_append]
              rw [List.filter_cons_of_neg (by simp [isTermRec])]
              rw [List.filter_cons_of_neg (by simp [isTermRec])]
              rw [List.filter_cons_of_neg (by simp [isTermRec])]
              rw [List.filter_append, updates_map_filter_termRec, List.nil_append]
              rw [List.filter_cons_of_neg (by simp [isTermRec])]
              rw [List.filter_cons_of_neg (by simp [isTermRec])]
              rw [List.filter_cons_of_pos (by simp [isTermRec])]
              rfl


/-- C7 witness at the concrete run `envC7`. -/
theorem c7_witness :
    (startPipelineTrace envC7).filter isTermRec
      = [Action.localRunError (some "boom") (some "stk") (some "inner") (some "x:1")] :=
  c7_confirmed envC7 handleC7 engErrC7 (by decide) rfl rfl rfl


/-! ## C10: pull that never starts -/

/-- C10: for every run whose pull list yields a single plain `{message,
statusCode}` value, the per-image promise is rejected with the bare message
STRING (`proxRej(stream.message)`); property access on that string yields
`undefined` for `message`, `stack` and `error`, so the first terminal record
delivered to observers is `local-run-error` with all-`undefined` payload —
and the `statusCode` appears nowhere in it. -/
theorem c10_confirmed (env : StartEnv) (msg : String) (code : Nat)
    (hpull : env.pullResult = .ok [DockerStream.plain msg code]) :
    streamSettle (DockerStream.plain msg code)
        = some (.error (.str msg))
      ∧ (RejReason.str msg).message = none
      ∧ (RejReason.str msg).stack = none
      ∧ (RejReason.str msg).error = none
      ∧ ((startPipelineTrace env).filter isTermRec).head?
          = some (Action.localRunError none none none none) := by
  refine ⟨rfl, rfl, rfl, rfl, ?_⟩
  have htr : startPipelineTrace env
      = Action.saveLocalRun ::
          Action.unlink env.runId ::
          Action.localRunError none none none none :: postAcqTrace env := by
    unfold startPipelineTrace
    rw [hpull]
    rfl
  rw [htr]
  rw [List.filter_cons_of_neg (by simp [isTermRec])]
  rw [List.filter_cons_of_neg (by simp [isTermRec])]
  rw [List.filter_cons_of_pos (by simp [isTermRec])]
  rfl


/-- C10 witness at the concrete run `envC10`. -/
theorem c10_witness :
    streamSettle (DockerStream.plain "daemon unreachable" 500)
        = some (.error (.str "daemon unreachable"))
      ∧ (RejReason.str "daemon unreachable").message = none
      ∧ (RejReason.str "daemon unreachable").stack = none
      ∧ (RejReason.str "daemon unreachable").error = none
      ∧ ((startPipelineTrace envC10).filter isTermRec).head?
          = some (Action.localRunError none none none none) :=
  c10_confirmed envC10 "daemon unreachable" 500 rfl


/-- C5 counterexample: on an execution rejection the `Pipeline stopped`
desktop notification (index 4) fires BEFORE `unlinkFiles` (index 5), so
cleanup does not complete before every notification of the failure; and on a
run whose `startPipeline` call rejects, the terminal record is emitted with
no `unlinkFiles` call at all. -/
theorem c5_counterexample :
    ((startPipelineTrace envC5a).findIdx? isStoppedNotify = some 4
      ∧ (startPipelineTrace envC5a).findIdx? isUnlinkA = some 5)
    ∧ (Action.localRunError (some "died") none none none ∈ startPipelineTrace envC5b
      ∧ countUnlink (startPipelineTrace envC5b) = 0) := by
  refine ⟨⟨by decide, by decide⟩, by decide, by decide⟩


theorem find_special_acqCatch (runId : String) (r : RejReason)
    (rest : List Action) :
    ((acqCatchTrace runId r ++ rest).find? isSpecialA)
      = some (Action.unlink runId) := by
  unfold acqCatchTrace
  rw [List.cons_append]
  rw [List.find?_cons_of_pos _ (by simp [isSpecialA, isUnlinkA])]


theorem postAcq_find_special (env : StartEnv) (hsp : spOk env = true) :
    (postAcqTrace env).find? isSpecialA = none
      ∨ (postAcqTrace env).find? isSpecialA = some (Action.unlink env.runId) := by
  unfold spOk at hsp
  cases hspr : env.startPipelineResult with
  | error e => simp [hspr] at hsp
  | ok handle =>
      by_cases hp : env.pruneOk = true
      · cases hres : handle.result with
        | ok r =>
            right
            have hpa : postAcqTrace env
                = Action.pruneCall ::
                  Action.notify "Pipeline started"
                    ("Pipeline " ++ env.pipelineName ++ " started on consortia " ++ env.consName) ::
                  Action.startPipelineCall ::
                    ((handle.updates.map (fun d => Action.stateUpdate d)) ++
                      (Action.notify "Pipeline finished"
                          ("Pipeline " ++ env.pipelineName ++ " finished on consortia " ++ env.consName) ::
                        Action.unlink env.runId ::
                          (if env.runType = "local" then [Action.localRunComplete] else []))) := by
              unfold postAcqTrace
              simp [hp, hspr, hres]
            rw [hpa]
            rw [List.find?_cons_of_neg _ (by simp [isSpecialA, isUnlinkA, isTermRec])]
            rw [List.find?_cons_of_neg _ (by simp [isSpecialA, isUnlinkA, isTermRec])]
            rw [List.find?_cons_of_neg _ (by simp [isSpecialA, isUnlinkA, isTermRec])]
            rw [find_append_of_none (updates_map_find_special handle.updates)]
            rw [List.find?_cons_of_neg _ (by simp [isSpecialA, isUnlinkA, isTermRec])]
            rw [List.find?_cons_of_pos _ (by simp [isSpecialA, isUnlinkA])]
        | error e =>
            right
            have hpa : postAcqTrace env
                = Action.pruneCall ::
                  Action.notify "Pipeline started"
                    ("Pipeline " ++ env.pipelineName ++ " started on consortia " ++ env.consName) ::
                  Action.startPipelineCall ::
                    ((handle.updates.map (fun d => Action.stateUpdate d)) ++
                      [ Action.notify "Pipeline stopped"
                          ("Pipeline " ++ env.pipelineName ++ " stopped on consortia " ++ env.consName)
                      , Action.unlink env.runId
                      , Action.localRunError e.message e.stack e.error e.input ]) := by
              unfold postAcqTrace
              simp [hp, hspr, hres]
            rw [hpa]
            rw [List.find?_cons_of_neg _ (by simp [isSpecialA, isUnlinkA, isTermRec])]
            rw [List.find?_cons_of_neg _ (by simp [isSpecialA, isUnlinkA, isTermRec])]
            rw [List.find?_cons_of_neg _ (by simp [isSpecialA, isUnlinkA, isTermRec])]
            rw [find_append_of_none (updates_map_find_special handle.updates)]
            rw [List.find?_cons_of_neg _ (by simp [isSpecialA, isUnlinkA, isTermRec])]
            rw [List.find?_cons_of_pos _ (by simp [isSpecialA, isUnlinkA])]
      · left
        have hpa : postAcqTrace env = [Action.pruneCall] := by
          unfold postAcqTrace
          simp [hp]
        rw [hpa]
        rfl


/-- C5 (amended): except on the path where the `startPipeline` call itself
rejects after a successful acquisition, the first cleanup-or-terminal-record
action of a run's trace is always the `unlinkFiles` invocation for that run
— every terminal observer record is preceded by cleanup.  (The desktop
notification, which is fire-and-forget, may fire before cleanup, and the
excluded path emits its record with no cleanup at all.) -/
theorem c5_amended (env : StartEnv)
    (h : acqFailed env = true ∨ spOk env = true) :
    (startPipelineTrace env).find? isSpecialA = none
      ∨ (startPipelineTrace env).find? isSpecialA = some (Action.unlink env.runId) := by
  unfold startPipelineTrace
  rw [List.find?_cons_of_neg _ (by simp [isSpecialA, isUnlinkA, isTermRec])]
  cases hpr : env.pullResult with
  | error e =>
      right
      exact find_special_acqCatch env.runId (.obj e) (postAcqTrace env)
  | ok streams =>
      rw [find_append_of_none (flatten_streamTraces_find_special streams)]
      cases hao : acqOutcome streams with
      | none => left; rfl
      | some r =>
          cases r with
          | error r0 =>
              right
              exact find_special_acqCatch env.runId r0 (postAcqTrace env)
          | ok u =>
              have hsp : spOk env = true := by
                cases h with
                | inr hs => exact hs
                | inl hf =>
                    exfalso
                    unfold acqFailed at hf
                    simp [hpr, hao] at hf
              exact postAcq_find_special env hsp


/-- C5 (amended) witness at the concrete run `envC5a`. -/
theorem c5_witness :
    (startPipelineTrace envC5a).find? isSpecialA = none
      ∨ (startPipelineTrace envC5a).find? isSpecialA
          = some (Action.unlink envC5a.runId) :=
  c5_amended envC5a (Or.inr rfl)


/-- C8 counterexample: a stop request whose lookup throws NotFound IS
injected into the observer event stream (a `docker-error` send) and nothing
is returned to the caller — refuting "returned to the caller, not injected
into the event stream". -/
theorem c8_counterexample :
    Action.dockerError (some "NotFound: no run with the provided id") (some "stk")
        ∈ (stopPipelineTrace ⟨.error notFoundErr⟩).1
      ∧ (stopPipelineTrace ⟨.error notFoundErr⟩).2 = none := by
  refine ⟨by decide, by decide⟩


/-- C8 (amended): for every stop request whose `requestPipelineStop` throws,
the handler catches the error, sends exactly one `docker-error`
`{message, stack}` record to the observer channel, returns nothing to the
caller, and mutates no run state (no `unlinkFiles` call, no terminal run
record). -/
theorem c8_amended (env : StopEnv) (e : ErrObj)
    (h : env.stopResult = .error e) :
    stopPipelineTrace env = ([Action.dockerError e.message e.stack], none)
      ∧ countUnlink (stopPipelineTrace env).1 = 0
      ∧ (stopPipelineTrace env).1.filter isTermRec = [] := by
  unfold stopPipelineTrace
  rw [h]
  exact ⟨rfl, rfl, rfl⟩


/-- C8 (amended) witness at the concrete NotFound stop request. -/
theorem c8_witness :
    stopPipelineTrace ⟨.error notFoundErr⟩
        = ([Action.dockerError (some "NotFound: no run with the provided id") (some "stk")], none)
      ∧ countUnlink (stopPipelineTrace ⟨.error notFoundErr⟩).1 = 0
      ∧ (stopPipelineTrace ⟨.error notFoundErr⟩).1.filter isTermRec = [] :=
  c8_amended ⟨.error notFoundErr⟩ notFoundErr rfl


/-- C9: invoking `login-init` while the core is already initialized performs
no configuration work and leaves the existing instance in place; moreover a
second invocation after any first one is always such a no-op (idempotence). -/
theorem c9_confirmed (st : Option CoreInst) (c fresh fresh2 : CoreInst)
    (h : st = some c) :
    loginInit st fresh = (st, false)
      ∧ (loginInit st fresh).1 = some c
      ∧ loginInit (loginInit st fresh).1 fresh2
          = ((loginInit st fresh).1, false) := by
  subst h
  exact ⟨rfl, rfl, rfl⟩


/-- C9 witness at a concrete initialized state. -/
theorem c9_witness :
    loginInit (some ⟨1⟩) ⟨2⟩ = (some (⟨1⟩ : CoreInst), false)
      ∧ (loginInit (some ⟨1⟩) ⟨2⟩).1 = some (⟨1⟩ : CoreInst)
      ∧ loginInit (loginInit (some ⟨1⟩) ⟨2⟩).1 ⟨3⟩
          = ((loginInit (some ⟨1⟩) ⟨2⟩).1, false) :=
  c9_confirmed (some ⟨1⟩) ⟨1⟩ ⟨2⟩ ⟨3⟩ rfl

end Coinstac
